import Mathlib

/-
Verification of the IMX219 sensor-control logic of drivers/media/i2c/imx219.c.

The embedding models the driver source directly:
  - machine integers are Nat/Int with explicit reductions modulo 2^8, 2^16 or
    2^32 where the C types (u8, u16, u32, int) make a reduction observable;
  - the i2c transport is an oracle (Bus): operation number i succeeds iff
    Bus.ok i, and a read of operation number i returns Bus.rd i; every
    attempted register access is recorded in a trace of Op values;
  - kernel abs() on a u32 operand assigns the operand to a signed 32-bit
    variable (two's complement conversion) before taking the absolute value,
    and the kernel is built with -fno-strict-overflow, so signed arithmetic
    wraps; toInt32, wrap32 and c_abs32 model exactly that.
-/

/-- Unsigned 32-bit subtraction a - b as in C u32 arithmetic. -/
def u32sub (a b : ℕ) : ℕ :=
  (a % 4294967296 + 4294967296 - b % 4294967296) % 4294967296

/-- Conversion of an unsigned 32-bit value to a signed int, two's complement. -/
def toInt32 (n : ℕ) : ℤ :=
  if n % 4294967296 < 2147483648 then (n % 4294967296 : ℕ)
  else ((n % 4294967296 : ℕ) : ℤ) - 4294967296

/-- Wrap-around of signed 32-bit arithmetic (kernel builds wrap on overflow). -/
def wrap32 (z : ℤ) : ℤ :=
  (z + 2147483648) % 4294967296 - 2147483648

/-- The kernel abs() macro applied to an int: absolute value with wrapping
negation (abs of INT_MIN stays INT_MIN). -/
def c_abs32 (z : ℤ) : ℤ := wrap32 |z|

/-- Bitwise OR of two C ints (the driver uses ret |= on write results). -/
def or32 (a b : ℤ) : ℤ :=
  toInt32 (Nat.lor ((a % 4294967296).toNat) ((b % 4294967296).toNat))

/-- DIV_ROUND_CLOSEST for unsigned operands: (x + d / 2) / d.  This is also
the round-to-nearest integer division the specification describes for
positive operands. -/
def div_round_closest (x d : ℕ) : ℕ := (x + d / 2) / d

/-- One entry of a register-programming table (struct imx219_reg). -/
structure imx219_reg where
  addr : ℕ
  val : ℕ
deriving DecidableEq

/-- struct v4l2_fract. -/
structure v4l2_fract where
  numerator : ℕ
  denominator : ℕ
deriving DecidableEq

/-- struct imx219_mode. -/
structure imx219_mode where
  bus_fmt : ℕ
  width : ℕ
  height : ℕ
  max_fps : v4l2_fract
  hts_def : ℕ
  vts_def : ℕ
  reg_list : List imx219_reg
  hdr_mode : ℕ
  freq_idx : ℕ
deriving DecidableEq

def MEDIA_BUS_FMT_SRGGB10_1X10 : ℕ := 0x300f

def NO_HDR : ℕ := 0

def IMX219_TABLE_END : ℕ := 0xffff

def IMX219_EXP_LINES_MARGIN : ℕ := 4

def IMX219_VTS_MAX : ℕ := 0xffff

/-- Register table imx219_init_tab_3280_2464_21fps, including the sentinel. -/
def imx219_init_tab_3280_2464_21fps : List imx219_reg :=
  [⟨0x30EB, 0x05⟩, ⟨0x30EB, 0x0C⟩, ⟨0x300A, 0xFF⟩, ⟨0x300B, 0xFF⟩,
   ⟨0x30EB, 0x05⟩, ⟨0x30EB, 0x09⟩, ⟨0x0114, 0x01⟩, ⟨0x0128, 0x00⟩,
   ⟨0x012A, 0x18⟩, ⟨0x012B, 0x00⟩, ⟨0x0164, 0x00⟩, ⟨0x0165, 0x00⟩,
   ⟨0x0166, 0x0c⟩, ⟨0x0167, 0xcf⟩, ⟨0x0168, 0x00⟩, ⟨0x0169, 0x00⟩,
   ⟨0x016A, 0x09⟩, ⟨0x016B, 0x9f⟩, ⟨0x016C, 0x0c⟩, ⟨0x016D, 0xd0⟩,
   ⟨0x016E, 0x09⟩, ⟨0x016F, 0xa0⟩, ⟨0x015A, 0x01⟩, ⟨0x015B, 0xF4⟩,
   ⟨0x0160, 0x09⟩, ⟨0x0161, 0xC4⟩, ⟨0x0162, 0x0D⟩, ⟨0x0163, 0x78⟩,
   ⟨0x0260, 0x09⟩, ⟨0x0261, 0xC4⟩, ⟨0x0262, 0x0D⟩, ⟨0x0263, 0x78⟩,
   ⟨0x0170, 0x01⟩, ⟨0x0171, 0x01⟩, ⟨0x0270, 0x01⟩, ⟨0x0271, 0x01⟩,
   ⟨0x0174, 0x00⟩, ⟨0x0175, 0x00⟩, ⟨0x0274, 0x00⟩, ⟨0x0275, 0x00⟩,
   ⟨0x018C, 0x0A⟩, ⟨0x018D, 0x0A⟩, ⟨0x028C, 0x0A⟩, ⟨0x028D, 0x0A⟩,
   ⟨0x0301, 0x05⟩, ⟨0x0303, 0x01⟩, ⟨0x0304, 0x03⟩, ⟨0x0305, 0x03⟩,
   ⟨0x0306, 0x00⟩, ⟨0x0307, 0x39⟩, ⟨0x0309, 0x0A⟩, ⟨0x030B, 0x01⟩,
   ⟨0x030C, 0x00⟩, ⟨0x030D, 0x72⟩, ⟨0x455E, 0x00⟩, ⟨0x471E, 0x4B⟩,
   ⟨0x4767, 0x0F⟩, ⟨0x4750, 0x14⟩, ⟨0x47B4, 0x14⟩, ⟨0x4713, 0x30⟩,
   ⟨0x478b, 0x10⟩, ⟨0x478f, 0x10⟩, ⟨0x4793, 0x10⟩, ⟨0x4797, 0x0e⟩,
   ⟨0x479b, 0x0e⟩, ⟨0xffff, 0x00⟩]

/-- Register table imx219_init_tab_1920_1080_30fps, including the sentinel. -/
def imx219_init_tab_1920_1080_30fps : List imx219_reg :=
  [⟨0x30EB, 0x05⟩, ⟨0x30EB, 0x0C⟩, ⟨0x300A, 0xFF⟩, ⟨0x300B, 0xFF⟩,
   ⟨0x30EB, 0x05⟩, ⟨0x30EB, 0x09⟩, ⟨0x0114, 0x01⟩, ⟨0x0128, 0x00⟩,
   ⟨0x012A, 0x18⟩, ⟨0x012B, 0x00⟩, ⟨0x0160, 0x06⟩, ⟨0x0161, 0xE6⟩,
   ⟨0x0162, 0x0D⟩, ⟨0x0163, 0x78⟩, ⟨0x0164, 0x02⟩, ⟨0x0165, 0xA8⟩,
   ⟨0x0166, 0x0A⟩, ⟨0x0167, 0x27⟩, ⟨0x0168, 0x02⟩, ⟨0x0169, 0xB4⟩,
   ⟨0x016A, 0x06⟩, ⟨0x016B, 0xEB⟩, ⟨0x016C, 0x07⟩, ⟨0x016D, 0x80⟩,
   ⟨0x016E, 0x04⟩, ⟨0x016F, 0x38⟩, ⟨0x0170, 0x01⟩, ⟨0x0171, 0x01⟩,
   ⟨0x0174, 0x00⟩, ⟨0x0175, 0x00⟩, ⟨0x018C, 0x0A⟩, ⟨0x018D, 0x0A⟩,
   ⟨0x0301, 0x05⟩, ⟨0x0303, 0x01⟩, ⟨0x0304, 0x03⟩, ⟨0x0305, 0x03⟩,
   ⟨0x0306, 0x00⟩, ⟨0x0307, 0x39⟩, ⟨0x0309, 0x0A⟩, ⟨0x030B, 0x01⟩,
   ⟨0x030C, 0x00⟩, ⟨0x030D, 0x72⟩, ⟨0x455E, 0x00⟩, ⟨0x471E, 0x4B⟩,
   ⟨0x4767, 0x0F⟩, ⟨0x4750, 0x14⟩, ⟨0x4540, 0x00⟩, ⟨0x47B4, 0x14⟩,
   ⟨0xffff, 0x00⟩]

/-- The start table: mode select streaming on. -/
def imx219_start_tab : List imx219_reg := [⟨0x0100, 0x01⟩, ⟨0xffff, 0x00⟩]

/-- The stop table: mode select streaming off. -/
def imx219_stop_tab : List imx219_reg := [⟨0x0100, 0x00⟩, ⟨0xffff, 0x00⟩]

/-- supported_modes[0]: 1920x1080 at 30 fps.
hts_def is 0x0d78 - IMX219_EXP_LINES_MARGIN, vts_def is 0x06E3. -/
def imx219_mode_0 : imx219_mode :=
  { bus_fmt := MEDIA_BUS_FMT_SRGGB10_1X10
    width := 1920
    height := 1080
    max_fps := ⟨10000, 300000⟩
    hts_def := 0x0d78 - IMX219_EXP_LINES_MARGIN
    vts_def := 0x06E3
    reg_list := imx219_init_tab_1920_1080_30fps
    hdr_mode := NO_HDR
    freq_idx := 0 }

/-- supported_modes[1]: 3280x2464 at 21 fps.
hts_def is 0x0d78 - IMX219_EXP_LINES_MARGIN, vts_def is 0x09c4. -/
def imx219_mode_1 : imx219_mode :=
  { bus_fmt := MEDIA_BUS_FMT_SRGGB10_1X10
    width := 3280
    height := 2464
    max_fps := ⟨10000, 210000⟩
    hts_def := 0x0d78 - IMX219_EXP_LINES_MARGIN
    vts_def := 0x09c4
    reg_list := imx219_init_tab_3280_2464_21fps
    hdr_mode := NO_HDR
    freq_idx := 0 }

def supported_modes : List imx219_mode := [imx219_mode_0, imx219_mode_1]

/-- Placeholder mode used only to make list indexing total; the driver never
indexes supported_modes out of bounds. -/
def imx219_mode_dflt : imx219_mode := ⟨0, 0, 0, ⟨0, 0⟩, 0, 0, [], 0, 0⟩

/-- supported_modes[n]. -/
def getMode (n : ℕ) : imx219_mode := supported_modes.getD n imx219_mode_dflt

/-- One attempted bus-level operation.  power models the s_power on and off
calls of the probe path (clk enable and disable, not i2c traffic). -/
inductive Op where
  | write (addr len val : ℕ)
  | read (addr len : ℕ)
  | power (up : Bool)
deriving DecidableEq

/-- The transport oracle: operation number i succeeds iff ok i; a read of
operation number i returns the raw bytes rd i. -/
structure Bus where
  ok : ℕ → Bool
  rd : ℕ → ℕ

/-- Result of a write-side operation: attempted ops, next operation number,
C return value. -/
structure WrRes where
  ops : List Op
  nxt : ℕ
  ret : ℤ
deriving DecidableEq

/-- Result of a read: attempted ops, next operation number, C return value,
value read (meaningful only when ret = 0). -/
structure RdRes where
  ops : List Op
  nxt : ℕ
  ret : ℤ
  val : ℕ
deriving DecidableEq

/-- reg_write: rejects len > 4 with -EINVAL before touching the bus, else
performs one i2c send which yields -EIO on failure. -/
def reg_write (bus : Bus) (i addr len val : ℕ) : WrRes :=
  if 4 < len then ⟨[], i, -22⟩
  else ⟨[Op.write addr len val], i + 1, if bus.ok i then 0 else -5⟩

/-- reg_read: rejects len > 4 with -EINVAL, else performs one i2c transfer;
the value read is the len low-order bytes supplied by the device. -/
def reg_read (bus : Bus) (i addr len : ℕ) : RdRes :=
  if 4 < len then ⟨[], i, -22, 0⟩
  else ⟨[Op.read addr len], i + 1, if bus.ok i then 0 else -5, bus.rd i % 256 ^ len⟩

/-- reg_write_table: 8-bit writes of successive entries, stopping at the
sentinel address, aborting on the first failed write (ret < 0). -/
def reg_write_table (bus : Bus) : ℕ → List imx219_reg → WrRes
  | i, [] => ⟨[], i, 0⟩
  | i, r :: rest =>
      if r.addr = IMX219_TABLE_END then ⟨[], i, 0⟩
      else
        let w := reg_write bus i r.addr 1 r.val
        if w.ret < 0 then w
        else
          let t := reg_write_table bus w.nxt rest
          ⟨w.ops ++ t.ops, t.nxt, t.ret⟩

/-- imx219_get_reso_dist: abs(mode->width - framefmt->width) +
abs(mode->height - framefmt->height).  The subtractions are u32, the kernel
abs() converts the u32 operand to a signed int, and the sum is signed 32-bit
addition; all of this wraps, which the embedding keeps. -/
def imx219_get_reso_dist (m : imx219_mode) (w h : ℕ) : ℤ :=
  wrap32 (c_abs32 (toInt32 (u32sub m.width w)) + c_abs32 (toInt32 (u32sub m.height h)))

/-- The loop body of imx219_find_best_fit: the current index, the current
best index and the current best distance are threaded through the catalog. -/
def imx219_find_best_fit_from (w h : ℕ) : List imx219_mode → ℕ → ℕ → ℤ → ℕ
  | [], _, best, _ => best
  | m :: rest, i, best, bestDist =>
      let dist := imx219_get_reso_dist m w h
      if bestDist = -1 ∨ dist < bestDist then
        imx219_find_best_fit_from w h rest (i + 1) i dist
      else
        imx219_find_best_fit_from w h rest (i + 1) best bestDist

/-- imx219_find_best_fit, returning the selected catalog index. -/
def imx219_find_best_fit (w h : ℕ) : ℕ :=
  imx219_find_best_fit_from w h supported_modes 0 0 (-1)

/-- The fields of struct v4l2_mbus_framefmt that the driver reads or sets. -/
structure mbus_fmt where
  code : ℕ
  width : ℕ
  height : ℕ
deriving DecidableEq

/-- The three controls whose ranges or values the driver republishes. -/
inductive CtrlRef where
  | hblank
  | vblank
  | pixel_rate
deriving DecidableEq

/-- A call into the control framework: either __v4l2_ctrl_modify_range with
min, max, step, default, or __v4l2_ctrl_s_ctrl_int64 with a value. -/
inductive CtrlEvent where
  | modifyRange (c : CtrlRef) (mn mx st df : ℤ)
  | setInt64 (c : CtrlRef) (v : ℤ)
deriving DecidableEq

/-- The mutable driver state of struct imx219 that the modelled operations
touch.  cur_mode is the index of the active entry of supported_modes. -/
structure imx219_state where
  hflip : ℤ
  vflip : ℤ
  analogue_gain : ℕ
  digital_gain : ℕ
  exposure_time : ℕ
  test_pattern : ℕ
  cur_mode : ℕ
  cur_vts : ℕ
deriving DecidableEq

/-- The state right after probe: kzalloc zeroes everything and cur_mode is
set to supported_modes[0]. -/
def imx219_init_state : imx219_state := ⟨0, 0, 0, 0, 0, 0, 0, 0⟩

/-- fps = DIV_ROUND_CLOSEST(mode->max_fps.denominator, mode->max_fps.numerator). -/
def imx219_fps (m : imx219_mode) : ℕ :=
  div_round_closest m.max_fps.denominator m.max_fps.numerator

/-- pixel_rate = mode->vts_def * mode->hts_def * fps in u32 arithmetic,
then widened to s64. -/
def imx219_pixel_rate_of (m : imx219_mode) : ℕ :=
  m.vts_def * m.hts_def * imx219_fps m % 4294967296

/-- Result of imx219_set_fmt: new state, control-framework calls, the format
struct handed back to the caller, return value. -/
structure FmtRes where
  priv : imx219_state
  events : List CtrlEvent
  fmt : mbus_fmt
  ret : ℤ
deriving DecidableEq

/-- imx219_set_fmt.  A TRY format returns 0 untouched; an ACTIVE format runs
best-fit selection, overwrites the format with the selected mode, stores the
mode, and republishes the hblank, vblank and pixel-rate ranges.  The
colorspace reset and field assignment touch fields outside this model. -/
def imx219_set_fmt (priv : imx219_state) (tryFmt : Bool) (f : mbus_fmt) : FmtRes :=
  if tryFmt then ⟨priv, [], f, 0⟩
  else
    let best := imx219_find_best_fit f.width f.height
    let m := getMode best
    let hb : ℤ := u32sub m.hts_def m.width
    let vb : ℤ := u32sub m.vts_def m.height
    let pr : ℤ := imx219_pixel_rate_of m
    ⟨{ priv with cur_mode := best },
     [CtrlEvent.modifyRange CtrlRef.hblank hb hb 1 hb,
      CtrlEvent.modifyRange CtrlRef.vblank vb (u32sub IMX219_VTS_MAX m.height) 1 vb,
      CtrlEvent.modifyRange CtrlRef.pixel_rate pr pr 1 pr],
     ⟨m.bus_fmt, m.width, m.height⟩, 0⟩

/-- imx219_get_fmt.  A TRY format returns 0 before the lock is taken (the
inner TRY branch is dead code); an ACTIVE format reports the current mode. -/
def imx219_get_fmt (priv : imx219_state) (tryFmt : Bool) (f : mbus_fmt) : mbus_fmt × ℤ :=
  if tryFmt then (f, 0)
  else
    (⟨(getMode priv.cur_mode).bus_fmt, (getMode priv.cur_mode).width,
      (getMode priv.cur_mode).height⟩, 0)

/-- The RKMODULE_SET_HDR_CFG search loop: first catalog index whose hdr_mode
matches, as in the C for loop with break. -/
def imx219_hdr_find (hm : ℕ) : List imx219_mode → ℕ → Option ℕ
  | [], _ => none
  | m :: rest, i => if m.hdr_mode = hm then some i else imx219_hdr_find hm rest (i + 1)

/-- Result of the RKMODULE_SET_HDR_CFG ioctl branch. -/
structure HdrRes where
  priv : imx219_state
  events : List CtrlEvent
  ret : ℤ
deriving DecidableEq

/-- The RKMODULE_SET_HDR_CFG branch of imx219_ioctl: select the first mode
with the requested hdr_mode (error if none), republish hblank and vblank
ranges, set the pixel-rate control value, and record cur_vts = vts_def. -/
def imx219_set_hdr_cfg (priv : imx219_state) (hm : ℕ) : HdrRes :=
  match imx219_hdr_find hm supported_modes 0 with
  | none => ⟨priv, [], -22⟩
  | some i =>
      let m := getMode i
      let w : ℤ := u32sub m.hts_def m.width
      let h : ℤ := u32sub m.vts_def m.height
      let pr : ℤ := imx219_pixel_rate_of m
      ⟨{ priv with cur_mode := i, cur_vts := m.vts_def % 65536 },
       [CtrlEvent.modifyRange CtrlRef.hblank w w 1 w,
        CtrlEvent.modifyRange CtrlRef.vblank h (u32sub IMX219_VTS_MAX m.height) 1 h,
        CtrlEvent.setInt64 CtrlRef.pixel_rate pr], 0⟩

/-- Result of a stateful register-writing operation (s_stream, s_ctrl). -/
structure StRes where
  priv : imx219_state
  ops : List Op
  ret : ℤ
deriving DecidableEq

/-- cur_vts after a stream start: vts_def - IMX219_EXP_LINES_MARGIN stored
into the u16 field. -/
def imx219_stream_vts (m : imx219_mode) : ℕ :=
  u32sub m.vts_def IMX219_EXP_LINES_MARGIN % 65536

/-- The orientation register value: bit 0 from hflip, bit 1 from vflip. -/
def imx219_orient (priv : imx219_state) : ℕ :=
  (if priv.hflip ≠ 0 then 1 else 0) ||| (if priv.vflip ≠ 0 then 2 else 0)

/-- The test-pattern block of imx219_s_stream.  When a pattern is selected
the three writes are all attempted and their results are OR-combined
(ret |= in the source); otherwise a single disable write. -/
def imx219_tp_writes (priv : imx219_state) (bus : Bus) (i : ℕ) : WrRes :=
  if priv.test_pattern ≠ 0 then
    let a := reg_write bus i 0x0600 2 priv.test_pattern
    let b := reg_write bus a.nxt 0x0624 2 (getMode priv.cur_mode).width
    let c := reg_write bus b.nxt 0x0626 2 (getMode priv.cur_mode).height
    ⟨a.ops ++ b.ops ++ c.ops, c.nxt, or32 (or32 a.ret b.ret) c.ret⟩
  else reg_write bus i 0x0600 2 0

/-- imx219_s_stream.  Stop writes the stop table only.  Start replays the
mode register list, then writes orientation, then the test-pattern block,
updates cur_vts = vts_def - IMX219_EXP_LINES_MARGIN (u16), and finally
writes the start table; each phase aborts the rest on failure. -/
def imx219_s_stream (priv : imx219_state) (bus : Bus) (i0 : ℕ) (enable : Bool) : StRes :=
  if enable = false then
    let t := reg_write_table bus i0 imx219_stop_tab
    ⟨priv, t.ops, t.ret⟩
  else
    let t := reg_write_table bus i0 (getMode priv.cur_mode).reg_list
    if t.ret ≠ 0 then ⟨priv, t.ops, t.ret⟩
    else
      let w2 := reg_write bus t.nxt 0x0172 1 (imx219_orient priv)
      if w2.ret ≠ 0 then ⟨priv, t.ops ++ w2.ops, w2.ret⟩
      else
        let tp := imx219_tp_writes priv bus w2.nxt
        let p2 := { priv with cur_vts := imx219_stream_vts (getMode priv.cur_mode) }
        if tp.ret ≠ 0 then ⟨p2, t.ops ++ w2.ops ++ tp.ops, tp.ret⟩
        else
          let st := reg_write_table bus tp.nxt imx219_start_tab
          ⟨p2, t.ops ++ w2.ops ++ tp.ops ++ st.ops, st.ret⟩

/-- The unified-gain computation of the V4L2_CID_GAIN / ANALOGUE_GAIN case:
the control value is stored into a u16 gain variable, clamped to
[256, 43663], split into analog and digital portions, and converted to the
two register codes.  Returns (analogue_gain, digital_gain). -/
def imx219_gain_clamped (g : ℕ) : ℕ :=
  if g < 256 then 256 else if 43663 < g then 43663 else g

def imx219_a_gain (g : ℕ) : ℕ := if 256 ≤ g ∧ g ≤ 2728 then g else 2728

def imx219_d_gain (g : ℕ) : ℕ := if 256 ≤ g ∧ g ≤ 2728 then 256 else g * 256 / 2728

/-- analogue_gain = 256 - (256 * 256) / a_gain, forced to 0 when
a_gain < 256, clamped above at 232.  The u8 store cannot wrap because the
a_gain < 256 branch overwrites the only values that could. -/
def imx219_ana_code (a : ℕ) : ℕ :=
  if a < 256 then 0
  else if 232 < 256 - 256 * 256 / a then 232 else 256 - 256 * 256 / a

/-- digital_gain clamped to [256, 4095]. -/
def imx219_dig_code (d : ℕ) : ℕ :=
  if d < 256 then 256 else if 4095 < d then 4095 else d

def imx219_gain_calc (val : ℤ) : ℕ × ℕ :=
  let g := imx219_gain_clamped ((val % 65536).toNat)
  (imx219_ana_code (imx219_a_gain g), imx219_dig_code (imx219_d_gain g))

/-- The V4L2_CID_VBLANK raise: ctrl->val (an int) is compared against the
u32 vts_def, so the int converts to u32 first; a smaller value is replaced
by vts_def. -/
def imx219_vblank_raised (m : imx219_mode) (val : ℤ) : ℤ :=
  if (val % 4294967296).toNat < m.vts_def then (m.vts_def : ℤ) else val

/-- The test_pattern_val table. -/
def test_pattern_val : List ℕ := [0, 1, 2, 3, 4]

/-- The control identifiers imx219_s_ctrl dispatches on. -/
inductive CtrlId where
  | hflip
  | vflip
  | analogue_gain
  | gain
  | exposure
  | test_pattern
  | tp_red
  | tp_greenr
  | tp_blue
  | tp_greenb
  | vblank
  | other
deriving DecidableEq

/-- The code after the switch in imx219_s_ctrl, reached only by the cases
that break (hflip and vflip): read the mode-select register, propagate a
read failure, and re-run the start sequence (return value ignored) when the
low 5 bits read 1. -/
def imx219_ctrl_flush (priv : imx219_state) (bus : Bus) : StRes :=
  let r := reg_read bus 0 0x0100 1
  if r.ret ≠ 0 then ⟨priv, r.ops, r.ret⟩
  else if r.val &&& 0x1f = 1 then
    let s := imx219_s_stream priv bus r.nxt true
    ⟨s.priv, r.ops ++ s.ops, 0⟩
  else ⟨priv, r.ops, 0⟩

/-- imx219_s_ctrl.  The gain, exposure, test-pattern, color and vblank cases
return directly after their writes; only hflip and vflip fall through to
imx219_ctrl_flush.  Unknown controls return -EINVAL. -/
def imx219_s_ctrl (priv : imx219_state) (bus : Bus) (id : CtrlId) (val : ℤ) : StRes :=
  match id with
  | CtrlId.hflip => imx219_ctrl_flush { priv with hflip := val } bus
  | CtrlId.vflip => imx219_ctrl_flush { priv with vflip := val } bus
  | CtrlId.analogue_gain | CtrlId.gain =>
      let g := imx219_gain_calc val
      let p2 := { priv with analogue_gain := g.1, digital_gain := g.2 }
      let w1 := reg_write bus 0 0x0157 1 p2.analogue_gain
      let w2 := reg_write bus w1.nxt 0x0158 2 p2.digital_gain
      ⟨p2, w1.ops ++ w2.ops, or32 w1.ret w2.ret⟩
  | CtrlId.exposure =>
      let p2 := { priv with exposure_time := (val % 65536).toNat }
      let w := reg_write bus 0 0x015A 2 p2.exposure_time
      ⟨p2, w.ops, w.ret⟩
  | CtrlId.test_pattern =>
      let p2 := { priv with test_pattern := test_pattern_val.getD val.toNat 0 }
      let w := reg_write bus 0 0x0600 2 p2.test_pattern
      ⟨p2, w.ops, w.ret⟩
  | CtrlId.tp_red =>
      let w := reg_write bus 0 0x0602 2 ((val % 65536).toNat)
      ⟨priv, w.ops, w.ret⟩
  | CtrlId.tp_greenr =>
      let w := reg_write bus 0 0x0604 2 ((val % 65536).toNat)
      ⟨priv, w.ops, w.ret⟩
  | CtrlId.tp_blue =>
      let w := reg_write bus 0 0x0606 2 ((val % 65536).toNat)
      ⟨priv, w.ops, w.ret⟩
  | CtrlId.tp_greenb =>
      let w := reg_write bus 0 0x0608 2 ((val % 65536).toNat)
      ⟨priv, w.ops, w.ret⟩
  | CtrlId.vblank =>
      let m := getMode priv.cur_mode
      let v1 := imx219_vblank_raised m val
      let p2 :=
        if v1 - 4 ≠ (priv.cur_vts : ℤ) then
          { priv with cur_vts := ((v1 - 4) % 65536).toNat }
        else priv
      let w := reg_write bus 0 0x0160 2 p2.cur_vts
      ⟨p2, w.ops, w.ret⟩
  | CtrlId.other => ⟨priv, [], -22⟩

/-- imx219_video_probe: power on, read the 16-bit model id, the three lot-id
bytes and the 16-bit chip id (aborting on the first failed read), compare
the model id against 0x0219 (-ENODEV on mismatch), and power off on every
path.  The lot-id assembly is only logged and is dropped here. -/
def imx219_video_probe (bus : Bus) : List Op × ℤ :=
  let r1 := reg_read bus 0 0x0000 2
  if r1.ret ≠ 0 then ([Op.power true] ++ r1.ops ++ [Op.power false], r1.ret)
  else
    let r2 := reg_read bus r1.nxt 0x0004 1
    if r2.ret ≠ 0 then ([Op.power true] ++ r1.ops ++ r2.ops ++ [Op.power false], r2.ret)
    else
      let r3 := reg_read bus r2.nxt 0x0005 1
      if r3.ret ≠ 0 then
        ([Op.power true] ++ r1.ops ++ r2.ops ++ r3.ops ++ [Op.power false], r3.ret)
      else
        let r4 := reg_read bus r3.nxt 0x0006 1
        if r4.ret ≠ 0 then
          ([Op.power true] ++ r1.ops ++ r2.ops ++ r3.ops ++ r4.ops ++ [Op.power false], r4.ret)
        else
          let r5 := reg_read bus r4.nxt 0x000D 2
          if r5.ret ≠ 0 then
            ([Op.power true] ++ r1.ops ++ r2.ops ++ r3.ops ++ r4.ops ++ r5.ops ++
              [Op.power false], r5.ret)
          else if r1.val ≠ 0x0219 then
            ([Op.power true] ++ r1.ops ++ r2.ops ++ r3.ops ++ r4.ops ++ r5.ops ++
              [Op.power false], -19)
          else
            ([Op.power true] ++ r1.ops ++ r2.ops ++ r3.ops ++ r4.ops ++ r5.ops ++
              [Op.power false], 0)

/-- A transport on which every operation succeeds and every read returns 0. -/
def allOkBus : Bus := ⟨fun _ => true, fun _ => 0⟩

/-- A transport whose very first operation fails and all others succeed. -/
def failFirstBus : Bus := ⟨fun i => i != 0, fun _ => 0⟩

/-- A transport on which every operation fails. -/
def failAllBus : Bus := ⟨fun _ => false, fun _ => 0⟩

/-- A transport on which every operation succeeds and every read returns 1,
so the mode-select register reads as streaming. -/
def streamingBus : Bus := ⟨fun _ => true, fun _ => 1⟩

/-
Specification-side definitions, written from the wording of the claims and
compared against the embedded code.
-/

/-- The L1 (Manhattan) distance of the claim: |entry.width - requested.width|
+ |entry.height - requested.height| over the integers, without wrapping. -/
def specL1 (m : imx219_mode) (w h : ℕ) : ℤ :=
  |(m.width : ℤ) - (w : ℤ)| + |(m.height : ℤ) - (h : ℤ)|

/-- Claim side: unified gain clamped to [256, 43663]. -/
def spec_gain_clamped (u : ℕ) : ℕ := max 256 (min 43663 u)

/-- Claim side: analog portion of the clamped gain. -/
def spec_analog_portion (u : ℕ) : ℕ := if u ≤ 2728 then u else 2728

/-- Claim side, as written: digital portion round(gain * 256 / 2728),
round to nearest (half away from zero for these positive operands). -/
def spec_digital_portion_round (u : ℕ) : ℕ :=
  if u ≤ 2728 then 256 else (u * 256 + 1364) / 2728

/-- Claim side, amended: digital portion gain * 256 / 2728 with truncating
integer division. -/
def spec_digital_portion_trunc (u : ℕ) : ℕ :=
  if u ≤ 2728 then 256 else u * 256 / 2728

/-- Claim side: analog code 256 - (256 * 256) / analog_portion clamped to
[0, 232], 0 if the analog portion is below 256. -/
def spec_ana_code (a : ℕ) : ℕ :=
  if a < 256 then 0 else min 232 (256 - 256 * 256 / a)

/-- Claim side: digital code clamped to [256, 4095]. -/
def spec_dig_code (d : ℕ) : ℕ := min 4095 (max 256 d)

/-- Claim side, as written (round-to-nearest digital portion). -/
def spec_apply_gain_round (u : ℕ) : ℕ × ℕ :=
  (spec_ana_code (spec_analog_portion (spec_gain_clamped u)),
   spec_dig_code (spec_digital_portion_round (spec_gain_clamped u)))

/-- Claim side, amended (truncating digital portion). -/
def spec_apply_gain_trunc (u : ℕ) : ℕ × ℕ :=
  (spec_ana_code (spec_analog_portion (spec_gain_clamped u)),
   spec_dig_code (spec_digital_portion_trunc (spec_gain_clamped u)))

/-- The writes a register table produces when no failure interrupts it:
every entry before the sentinel, in order, as an 8-bit write. -/
def tableOps : List imx219_reg → List Op
  | [] => []
  | r :: rest =>
      if r.addr = IMX219_TABLE_END then []
      else Op.write r.addr 1 r.val :: tableOps rest

/-- The claimed order of the start sequence before the stream-enable write:
full mode register program, then orientation, then the test-pattern block. -/
def imx219_pre_seq (priv : imx219_state) : List Op :=
  tableOps (getMode priv.cur_mode).reg_list ++
    [Op.write 0x0172 1 (imx219_orient priv)] ++
    (if priv.test_pattern ≠ 0 then
      [Op.write 0x0600 2 priv.test_pattern,
       Op.write 0x0624 2 (getMode priv.cur_mode).width,
       Op.write 0x0626 2 (getMode priv.cur_mode).height]
     else [Op.write 0x0600 2 0])

/-- The claimed order of the whole start sequence: the pre-sequence followed
by the stream-enable write. -/
def imx219_start_seq (priv : imx219_state) : List Op :=
  imx219_pre_seq priv ++ [Op.write 0x0100 1 1]

/-- The five identity reads of the probe, in the order the code issues them. -/
def imx219_probe_reads : List Op :=
  [Op.read 0x0000 2, Op.read 0x0004 1, Op.read 0x0005 1, Op.read 0x0006 1,
   Op.read 0x000D 2]

/-
Helper lemmas.
-/

lemma wrap32_small (z : ℤ) (h1 : -2147483648 ≤ z) (h2 : z < 2147483648) :
    wrap32 z = z := by
  unfold wrap32
  omega

lemma c_abs32_u32sub (a w : ℕ) (ha : a < 2147483648) (hw : w < 2147483648) :
    c_abs32 (toInt32 (u32sub a w)) = |(a : ℤ) - (w : ℤ)| := by
  unfold c_abs32 u32sub toInt32 wrap32
  rcases le_or_lt (w : ℤ) (a : ℤ) with h | h
  · rw [abs_of_nonneg (by omega : (0 : ℤ) ≤ (a : ℤ) - (w : ℤ))]
    split
    · next hc =>
        rw [abs_of_nonneg (Int.natCast_nonneg _)]
        omega
    · next hc =>
        rw [abs_of_nonneg]
        · omega
        · push_cast
          omega
  · rw [abs_of_neg (by omega : (a : ℤ) - (w : ℤ) < 0)]
    split
    · next hc =>
        rw [abs_of_nonneg (Int.natCast_nonneg _)]
        omega
    · next hc =>
        rw [abs_of_nonpos]
        · omega
        · push_cast
          omega

lemma specL1_nonneg (m : imx219_mode) (w h : ℕ) : 0 ≤ specL1 m w h :=
  add_nonneg (abs_nonneg _) (abs_nonneg _)

lemma dist_eq_specL1 (m : imx219_mode) (w h : ℕ)
    (h1 : m.width < 1073741824) (h2 : m.height < 1073741824)
    (h3 : w < 1073741824) (h4 : h < 1073741824) :
    imx219_get_reso_dist m w h = specL1 m w h := by
  unfold imx219_get_reso_dist specL1
  rw [c_abs32_u32sub _ _ (by omega) (by omega), c_abs32_u32sub _ _ (by omega) (by omega)]
  have b1 : |(m.width : ℤ) - (w : ℤ)| < 1073741824 := by
    rcases abs_cases ((m.width : ℤ) - (w : ℤ)) with ⟨e, _⟩ | ⟨e, _⟩ <;> rw [e] <;> omega
  have b2 : |(m.height : ℤ) - (h : ℤ)| < 1073741824 := by
    rcases abs_cases ((m.height : ℤ) - (h : ℤ)) with ⟨e, _⟩ | ⟨e, _⟩ <;> rw [e] <;> omega
  have b3 : 0 ≤ |(m.width : ℤ) - (w : ℤ)| := abs_nonneg _
  have b4 : 0 ≤ |(m.height : ℤ) - (h : ℤ)| := abs_nonneg _
  exact wrap32_small _ (by omega) (by omega)

lemma best_fit_char (w h : ℕ) (hw : w < 1073741824) (hh : h < 1073741824) :
    imx219_find_best_fit w h =
      if specL1 imx219_mode_1 w h < specL1 imx219_mode_0 w h then 1 else 0 := by
  have d0 : imx219_get_reso_dist imx219_mode_0 w h = specL1 imx219_mode_0 w h :=
    dist_eq_specL1 _ _ _ (by decide) (by decide) hw hh
  have d1 : imx219_get_reso_dist imx219_mode_1 w h = specL1 imx219_mode_1 w h :=
    dist_eq_specL1 _ _ _ (by decide) (by decide) hw hh
  have hne : ¬ specL1 imx219_mode_0 w h = -1 := by
    have := specL1_nonneg imx219_mode_0 w h
    omega
  unfold imx219_find_best_fit supported_modes
  simp only [imx219_find_best_fit_from, true_or, if_true, Nat.zero_add]
  rw [d0, d1]
  by_cases hlt : specL1 imx219_mode_1 w h < specL1 imx219_mode_0 w h
  · rw [if_pos (Or.inr hlt), if_pos hlt]
  · rw [if_neg (by push_neg; exact ⟨hne, not_lt.mp hlt⟩), if_neg hlt]

lemma best_fit_lt_two (w h : ℕ) :
    imx219_find_best_fit w h = 0 ∨ imx219_find_best_fit w h = 1 := by
  unfold imx219_find_best_fit supported_modes
  simp only [imx219_find_best_fit_from, true_or, if_true, Nat.zero_add]
  split
  · exact Or.inr rfl
  · exact Or.inl rfl

/-
Claim theorems.
-/

/-- Claim C1 (amended): for every requested width and height below 2^30,
where the 32-bit distance arithmetic cannot overflow, imx219_find_best_fit
returns the catalog entry minimizing the L1 distance, and on a tie the entry
with the lower catalog index wins. -/
theorem imx219_c1_best_fit_l1_min (w h : ℕ)
    (hw : w < 1073741824) (hh : h < 1073741824) :
    ∀ i, i < supported_modes.length →
      specL1 (getMode (imx219_find_best_fit w h)) w h ≤ specL1 (getMode i) w h
      ∧ (specL1 (getMode i) w h = specL1 (getMode (imx219_find_best_fit w h)) w h →
          imx219_find_best_fit w h ≤ i) := by
  intro i hi
  rw [best_fit_char w h hw hh]
  have hi2 : i < 2 := hi
  set A := specL1 imx219_mode_0 w h with hA
  set B := specL1 imx219_mode_1 w h with hB
  have g0 : specL1 (getMode 0) w h = A := rfl
  have g1 : specL1 (getMode 1) w h = B := rfl
  by_cases hlt : B < A
  · rw [if_pos hlt]
    interval_cases i
    · exact ⟨by rw [g0, g1]; omega, by rw [g0, g1]; omega⟩
    · exact ⟨by rw [g1], by omega⟩
  · rw [if_neg hlt]
    interval_cases i
    · exact ⟨by rw [g0], by omega⟩
    · exact ⟨by rw [g0, g1]; omega, by omega⟩

/-- Witness for C1: the specification example, request 2000 x 1500, is
settled by the theorem and selects the 1920 x 1080 entry. -/
theorem imx219_c1_best_fit_l1_min_w :
    specL1 (getMode (imx219_find_best_fit 2000 1500)) 2000 1500 ≤
      specL1 (getMode 1) 2000 1500 :=
  (imx219_c1_best_fit_l1_min 2000 1500 (by decide) (by decide) 1 (by decide)).1

/-- Counterexample for C1 as frozen: at the request (5000, 2147483647) the
32-bit distance sum for entry 0 overflows and wraps negative, so the driver
selects entry 0 although entry 1 has the strictly smaller L1 distance. -/
theorem imx219_c1_best_fit_l1_cx :
    imx219_find_best_fit 5000 2147483647 = 0
    ∧ specL1 (getMode 1) 5000 2147483647 < specL1 (getMode 0) 5000 2147483647 := by
  constructor
  · decide
  · decide

/-- Claim C2: setting the ACTIVE format never fails, always performs
best-fit selection, overwrites the requested width, height and code with the
selected mode verbatim, and a subsequent get-format reports the now-active
mode. -/
theorem imx219_c2_set_get_fmt (priv : imx219_state) (f g : mbus_fmt) :
    (imx219_set_fmt priv false f).ret = 0
    ∧ (imx219_set_fmt priv false f).fmt =
        ⟨(getMode (imx219_find_best_fit f.width f.height)).bus_fmt,
         (getMode (imx219_find_best_fit f.width f.height)).width,
         (getMode (imx219_find_best_fit f.width f.height)).height⟩
    ∧ (imx219_set_fmt priv false f).priv.cur_mode = imx219_find_best_fit f.width f.height
    ∧ (imx219_get_fmt (imx219_set_fmt priv false f).priv false g).2 = 0
    ∧ (imx219_get_fmt (imx219_set_fmt priv false f).priv false g).1 =
        ⟨(getMode (imx219_find_best_fit f.width f.height)).bus_fmt,
         (getMode (imx219_find_best_fit f.width f.height)).width,
         (getMode (imx219_find_best_fit f.width f.height)).height⟩ := by
  refine ⟨rfl, rfl, rfl, rfl, rfl⟩

lemma ana_code_eq (a : ℕ) (ha : 256 ≤ a) : imx219_ana_code a = spec_ana_code a := by
  unfold imx219_ana_code spec_ana_code
  rw [if_neg (by omega : ¬ a < 256), if_neg (by omega : ¬ a < 256)]
  simp only [Nat.min_def]
  split_ifs <;> omega

lemma dig_code_eq (d : ℕ) : imx219_dig_code d = spec_dig_code d := by
  unfold imx219_dig_code spec_dig_code
  simp only [Nat.min_def, Nat.max_def]
  split_ifs <;> omega

/-- Claim C3 (amended): for every value of the 16-bit gain variable the
register codes follow the claimed policy with the digital portion computed
by truncating integer division gain * 256 / 2728 (the source divides, it
does not round to nearest); the claimed endpoint values hold. -/
theorem imx219_c3_gain_policy :
    (∀ g : ℤ, 0 ≤ g → g < 65536 → imx219_gain_calc g = spec_apply_gain_trunc g.toNat)
    ∧ imx219_gain_calc 43663 = (232, 4095)
    ∧ imx219_gain_calc 2728 = (232, 256) := by
  refine ⟨?_, by decide, by decide⟩
  intro g h0 h1
  have h2 : (g % 65536).toNat = g.toNat := by omega
  unfold imx219_gain_calc spec_apply_gain_trunc
  rw [h2]
  have hg : imx219_gain_clamped g.toNat = spec_gain_clamped g.toNat := by
    unfold imx219_gain_clamped spec_gain_clamped
    simp only [Nat.min_def, Nat.max_def]
    split_ifs <;> omega
  rw [hg]
  have hu1 : 256 ≤ spec_gain_clamped g.toNat := by
    unfold spec_gain_clamped
    simp only [Nat.min_def, Nat.max_def]
    split_ifs <;> omega
  set u := spec_gain_clamped g.toNat with hu
  have ha : imx219_a_gain u = spec_analog_portion u := by
    unfold imx219_a_gain spec_analog_portion
    split_ifs <;> omega
  have hd : imx219_d_gain u = spec_digital_portion_trunc u := by
    unfold imx219_d_gain spec_digital_portion_trunc
    split_ifs <;> omega
  show (imx219_ana_code (imx219_a_gain u), imx219_dig_code (imx219_d_gain u)) =
    (spec_ana_code (spec_analog_portion u), spec_dig_code (spec_digital_portion_trunc u))
  rw [ha, hd]
  have ha2 : 256 ≤ spec_analog_portion u := by
    unfold spec_analog_portion
    split_ifs <;> omega
  exact Prod.ext (ana_code_eq _ ha2) (dig_code_eq _)

/-- Witness for C3: the theorem applied at gain 300. -/
theorem imx219_c3_gain_policy_w :
    imx219_gain_calc 300 = spec_apply_gain_trunc (300 : ℤ).toNat :=
  imx219_c3_gain_policy.1 300 (by decide) (by decide)

/-- Counterexample for C3 as frozen: at unified gain 2734 the claimed
round-to-nearest digital portion is 257, but the driver's truncating
division stores digital code 256. -/
theorem imx219_c3_gain_round_cx :
    spec_apply_gain_round 2734 = (232, 257) ∧ imx219_gain_calc 2734 = (232, 256) := by
  constructor
  · decide
  · decide

/-- Claim C4 (amended): applying a gain control emits exactly the two
register writes, the 8-bit analog one first and the 16-bit digital one
second, but the digital write is attempted even when the analog write fails;
the returned status is the bitwise OR of the two results, which is the
transport error unchanged when only the analog write fails. -/
theorem imx219_c4_gain_writes (priv : imx219_state) (bus : Bus) (val : ℤ) :
    (imx219_s_ctrl priv bus CtrlId.gain val).ops =
      [Op.write 0x0157 1 (imx219_gain_calc val).1,
       Op.write 0x0158 2 (imx219_gain_calc val).2]
    ∧ (imx219_s_ctrl priv bus CtrlId.gain val).ret =
        or32 (if bus.ok 0 then 0 else -5) (if bus.ok 1 then 0 else -5)
    ∧ (bus.ok 0 = false → bus.ok 1 = true →
        (imx219_s_ctrl priv bus CtrlId.gain val).ret = -5) := by
  refine ⟨?_, ?_, ?_⟩
  · simp [imx219_s_ctrl, reg_write]
  · simp [imx219_s_ctrl, reg_write]
  · intro h0 h1
    simp [imx219_s_ctrl, reg_write, h0, h1]
    decide

/-- Witness for C4: with a transport failing only on its first operation,
applying a gain control returns the transport error -EIO. -/
theorem imx219_c4_gain_writes_w :
    (imx219_s_ctrl imx219_init_state failFirstBus CtrlId.gain 300).ret = -5 :=
  (imx219_c4_gain_writes imx219_init_state failFirstBus 300).2.2 rfl rfl

/-- Counterexample for C4 as frozen: the first (analog) write fails, yet the
second (digital) write is still attempted. -/
theorem imx219_c4_gain_abort_cx :
    failFirstBus.ok 0 = false
    ∧ Op.write 0x0158 2 256 ∈ (imx219_s_ctrl imx219_init_state failFirstBus CtrlId.gain 300).ops := by
  constructor
  · decide
  · decide

lemma getMode_vts_bounds (n : ℕ) (hn : n < 2) :
    1763 ≤ (getMode n).vts_def ∧ (getMode n).vts_def ≤ 2500 := by
  rcases (by omega : n = 0 ∨ n = 1) with h | h <;> rw [h]
  · exact ⟨by decide, by decide⟩
  · exact ⟨by decide, by decide⟩

/-- Claim C5 (amended): a non-negative requested vertical-blank value below
the active mode's vts_def is raised to vts_def; the new current vts is the
(possibly raised) value minus the exposure-lines margin; and the
frame-length register write is emitted unconditionally with that vts, even
when it equals the previously recorded cur_vts (the source guard only skips
the redundant state assignment, not the write). -/
theorem imx219_c5_vblank (priv : imx219_state) (bus : Bus) (val : ℤ)
    (hm : priv.cur_mode < 2) (h0 : 0 ≤ val) (h1 : val ≤ 65539) :
    (imx219_s_ctrl priv bus CtrlId.vblank val).priv =
      { priv with cur_vts := (max val ((getMode priv.cur_mode).vts_def : ℤ) - 4).toNat }
    ∧ (imx219_s_ctrl priv bus CtrlId.vblank val).ops =
        [Op.write 0x0160 2 (max val ((getMode priv.cur_mode).vts_def : ℤ) - 4).toNat]
    ∧ (imx219_s_ctrl priv bus CtrlId.vblank val).ret = (if bus.ok 0 then 0 else -5) := by
  obtain ⟨hv2, hv3⟩ := getMode_vts_bounds priv.cur_mode hm
  have hraise : imx219_vblank_raised (getMode priv.cur_mode) val =
      max val (((getMode priv.cur_mode).vts_def : ℕ) : ℤ) := by
    unfold imx219_vblank_raised
    have ht : ((val % 4294967296).toNat : ℤ) = val := by omega
    split_ifs with hc
    · omega
    · omega
  have hmr := le_max_right val (((getMode priv.cur_mode).vts_def : ℕ) : ℤ)
  have hmu : max val (((getMode priv.cur_mode).vts_def : ℕ) : ℤ) ≤ 65539 :=
    max_le h1 (by omega)
  simp only [imx219_s_ctrl]
  rw [hraise]
  set R : ℤ := max val (((getMode priv.cur_mode).vts_def : ℕ) : ℤ) with hR
  have hR1 : 1759 ≤ R - 4 := by omega
  have hR2 : R - 4 ≤ 65535 := by omega
  have hp2 : (if R - 4 ≠ (priv.cur_vts : ℤ) then
        { priv with cur_vts := ((R - 4) % 65536).toNat }
      else priv) = { priv with cur_vts := (R - 4).toNat } := by
    by_cases hg : R - 4 ≠ (priv.cur_vts : ℤ)
    · rw [if_pos hg]
      have hmod : ((R - 4) % 65536) = R - 4 := by omega
      rw [hmod]
    · rw [if_neg hg]
      push_neg at hg
      have hfix : priv.cur_vts = (R - 4).toNat := by omega
      rw [← hfix]
  rw [hp2]
  refine ⟨rfl, ?_, ?_⟩
  · simp [reg_write]
  · simp [reg_write]

/-- Witness for C5: requesting vertical blank 0 on the 1080p mode programs
the frame-length register with 1763 - 4 = 1759 (the value is raised to
vts_def first). -/
theorem imx219_c5_vblank_w :
    (imx219_s_ctrl imx219_init_state allOkBus CtrlId.vblank 0).ops =
      [Op.write 0x0160 2 1759] := by
  have h := (imx219_c5_vblank imx219_init_state allOkBus 0 (by decide) (by decide)
    (by decide)).2.1
  simpa using h

/-- Counterexample for C5 as frozen: with cur_vts already equal to the
computed vts (1759), the driver still emits the frame-length write; the
claimed idempotent no-op does not happen. -/
theorem imx219_c5_vblank_cx :
    ((1763 : ℤ) - 4 = (({ imx219_init_state with cur_vts := 1759 } : imx219_state).cur_vts : ℤ))
    ∧ (imx219_s_ctrl { imx219_init_state with cur_vts := 1759 } allOkBus CtrlId.vblank 1763).ops =
        [Op.write 0x0160 2 1759] := by
  constructor
  · decide
  · decide

/-- Claim C10: gain and vertical-blank applications update the stored state
(analogue-gain code, digital-gain code, current vts) to the newly computed
values before issuing the register writes, whose payloads are exactly those
stored values; when the transport fails the error is returned while the
state keeps the new values (no rollback). -/
theorem imx219_c10_state_first (priv : imx219_state) (bus : Bus) (val : ℤ)
    (hcv : priv.cur_vts < 65536) :
    ((imx219_s_ctrl priv bus CtrlId.gain val).priv =
        { priv with analogue_gain := (imx219_gain_calc val).1,
                    digital_gain := (imx219_gain_calc val).2 })
    ∧ ((imx219_s_ctrl priv bus CtrlId.gain val).ops =
        [Op.write 0x0157 1 (imx219_gain_calc val).1,
         Op.write 0x0158 2 (imx219_gain_calc val).2])
    ∧ ((imx219_s_ctrl priv bus CtrlId.vblank val).priv.cur_vts =
        ((imx219_vblank_raised (getMode priv.cur_mode) val - 4) % 65536).toNat)
    ∧ ((imx219_s_ctrl priv bus CtrlId.vblank val).ops =
        [Op.write 0x0160 2
          ((imx219_vblank_raised (getMode priv.cur_mode) val - 4) % 65536).toNat])
    ∧ (bus.ok 0 = false →
        (imx219_s_ctrl priv bus CtrlId.gain val).ret ≠ 0
        ∧ (imx219_s_ctrl priv bus CtrlId.vblank val).ret ≠ 0) := by
  have hvb : (if imx219_vblank_raised (getMode priv.cur_mode) val - 4 ≠ (priv.cur_vts : ℤ)
        then { priv with
          cur_vts := ((imx219_vblank_raised (getMode priv.cur_mode) val - 4) % 65536).toNat }
        else priv) =
      { priv with
        cur_vts := ((imx219_vblank_raised (getMode priv.cur_mode) val - 4) % 65536).toNat } := by
    by_cases hg : imx219_vblank_raised (getMode priv.cur_mode) val - 4 ≠ (priv.cur_vts : ℤ)
    · rw [if_pos hg]
    · rw [if_neg hg]
      push_neg at hg
      have hfix : priv.cur_vts =
          ((imx219_vblank_raised (getMode priv.cur_mode) val - 4) % 65536).toNat := by
        omega
      rw [← hfix]
  refine ⟨by simp [imx219_s_ctrl], by simp [imx219_s_ctrl, reg_write], ?_, ?_, ?_⟩
  · simp only [imx219_s_ctrl]
    rw [hvb]
  · simp only [imx219_s_ctrl]
    rw [hvb]
    simp [reg_write]
  · intro h0
    constructor
    · cases h1 : bus.ok 1 <;> simp [imx219_s_ctrl, reg_write, h0, h1] <;> decide
    · simp only [imx219_s_ctrl]
      rw [hvb]
      simp [reg_write, h0]

/-- Witness for C10: with an always-failing transport, applying a gain
control returns an error while the stored analogue-gain code already holds
the newly computed value 38 (gain 300). -/
theorem imx219_c10_state_first_w :
    (imx219_s_ctrl imx219_init_state failAllBus CtrlId.gain 300).priv.analogue_gain = 38
    ∧ (imx219_s_ctrl imx219_init_state failAllBus CtrlId.gain 300).ret ≠ 0 := by
  have h := imx219_c10_state_first imx219_init_state failAllBus 300 (by decide)
  refine ⟨?_, (h.2.2.2.2 rfl).1⟩
  rw [h.1]
  decide

/-- Claim C8 (amended): gain, exposure, test-pattern and vertical-blank
applications return right after their own register writes, never reading the
mode-select register and never re-applying the start sequence; only the
hflip and vflip cases fall through to the mode-select read and, when the low
5 bits of the value read equal 1, re-run the start sequence. -/
theorem imx219_c8_ctrl_replay (priv : imx219_state) (bus : Bus) (val : ℤ) :
    ((imx219_s_ctrl priv bus CtrlId.gain val).ops =
        [Op.write 0x0157 1 (imx219_gain_calc val).1,
         Op.write 0x0158 2 (imx219_gain_calc val).2])
    ∧ ((imx219_s_ctrl priv bus CtrlId.exposure val).ops =
        [Op.write 0x015A 2 ((val % 65536).toNat)])
    ∧ ((imx219_s_ctrl priv bus CtrlId.test_pattern val).ops =
        [Op.write 0x0600 2 (test_pattern_val.getD val.toNat 0)])
    ∧ ((imx219_s_ctrl priv bus CtrlId.vblank val).ops =
        [Op.write 0x0160 2 (imx219_s_ctrl priv bus CtrlId.vblank val).priv.cur_vts])
    ∧ ((imx219_s_ctrl priv bus CtrlId.hflip val).ops =
        Op.read 0x0100 1 ::
          (if bus.ok 0 = true ∧ (bus.rd 0 % 256) &&& 0x1f = 1 then
            (imx219_s_stream { priv with hflip := val } bus 1 true).ops
          else []))
    ∧ ((imx219_s_ctrl priv bus CtrlId.vflip val).ops =
        Op.read 0x0100 1 ::
          (if bus.ok 0 = true ∧ (bus.rd 0 % 256) &&& 0x1f = 1 then
            (imx219_s_stream { priv with vflip := val } bus 1 true).ops
          else [])) := by
  refine ⟨by simp [imx219_s_ctrl, reg_write], by simp [imx219_s_ctrl, reg_write],
    by simp [imx219_s_ctrl, reg_write], by simp [imx219_s_ctrl, reg_write], ?_, ?_⟩
  · cases h0 : bus.ok 0
    · simp [imx219_s_ctrl, imx219_ctrl_flush, reg_read, h0]
    · by_cases h1 : (bus.rd 0 % 256) &&& 0x1f = 1
      · simp [imx219_s_ctrl, imx219_ctrl_flush, reg_read, h0, h1]
      · simp [imx219_s_ctrl, imx219_ctrl_flush, reg_read, h0, h1]
  · cases h0 : bus.ok 0
    · simp [imx219_s_ctrl, imx219_ctrl_flush, reg_read, h0]
    · by_cases h1 : (bus.rd 0 % 256) &&& 0x1f = 1
      · simp [imx219_s_ctrl, imx219_ctrl_flush, reg_read, h0, h1]
      · simp [imx219_s_ctrl, imx219_ctrl_flush, reg_read, h0, h1]

/-- Counterexample for C8 as frozen: applying an exposure control on a
device whose mode-select register would read 1 (streaming) issues only the
exposure write; the claimed mode-select read and start replay never happen. -/
theorem imx219_c8_exposure_cx :
    (imx219_s_ctrl imx219_init_state streamingBus CtrlId.exposure 1000).ops =
      [Op.write 0x015A 2 1000]
    ∧ Op.read 0x0100 1 ∉ (imx219_s_ctrl imx219_init_state streamingBus CtrlId.exposure 1000).ops
    ∧ Op.write 0x0100 1 1 ∉ (imx219_s_ctrl imx219_init_state streamingBus CtrlId.exposure 1000).ops := by
  refine ⟨by decide, by decide, by decide⟩

/-- Claim side: horizontal blank of a mode, hts_def - width. -/
def spec_hblank (m : imx219_mode) : ℤ := (m.hts_def : ℤ) - (m.width : ℤ)

/-- Claim side: minimum and default vertical blank of a mode,
vts_def - height. -/
def spec_vblank (m : imx219_mode) : ℤ := (m.vts_def : ℤ) - (m.height : ℤ)

/-- Claim side: maximum vertical blank of a mode, 0xffff - height. -/
def spec_vblank_max (m : imx219_mode) : ℤ := 65535 - (m.height : ℤ)

/-- Claim side: pixel rate of a mode,
vts_def * hts_def * round_to_nearest(fps_denominator / fps_numerator). -/
def spec_pixel_rate (m : imx219_mode) : ℤ :=
  (m.vts_def : ℤ) * (m.hts_def : ℤ) *
    (div_round_closest m.max_fps.denominator m.max_fps.numerator : ℤ)

/-- Claim C6 (amended): a set-format mode switch republishes all three
derived control ranges from the newly active mode, with the claimed
formulas; an HDR-config mode switch republishes the hblank and vblank
ranges the same way but only sets the pixel-rate control value (it does not
republish the pixel-rate range). -/
theorem imx219_c6_mode_switch_ranges (priv : imx219_state) (f : mbus_fmt) (hm : ℕ) :
    ((imx219_set_fmt priv false f).events =
      [CtrlEvent.modifyRange CtrlRef.hblank
        (spec_hblank (getMode (imx219_find_best_fit f.width f.height)))
        (spec_hblank (getMode (imx219_find_best_fit f.width f.height))) 1
        (spec_hblank (getMode (imx219_find_best_fit f.width f.height))),
       CtrlEvent.modifyRange CtrlRef.vblank
        (spec_vblank (getMode (imx219_find_best_fit f.width f.height)))
        (spec_vblank_max (getMode (imx219_find_best_fit f.width f.height))) 1
        (spec_vblank (getMode (imx219_find_best_fit f.width f.height))),
       CtrlEvent.modifyRange CtrlRef.pixel_rate
        (spec_pixel_rate (getMode (imx219_find_best_fit f.width f.height)))
        (spec_pixel_rate (getMode (imx219_find_best_fit f.width f.height))) 1
        (spec_pixel_rate (getMode (imx219_find_best_fit f.width f.height)))])
    ∧ (hm = 0 →
        (imx219_set_hdr_cfg priv hm).events =
          [CtrlEvent.modifyRange CtrlRef.hblank (spec_hblank (getMode 0))
            (spec_hblank (getMode 0)) 1 (spec_hblank (getMode 0)),
           CtrlEvent.modifyRange CtrlRef.vblank (spec_vblank (getMode 0))
            (spec_vblank_max (getMode 0)) 1 (spec_vblank (getMode 0)),
           CtrlEvent.setInt64 CtrlRef.pixel_rate (spec_pixel_rate (getMode 0))]
        ∧ (imx219_set_hdr_cfg priv hm).ret = 0
        ∧ (imx219_set_hdr_cfg priv hm).priv.cur_mode = 0
        ∧ (imx219_set_hdr_cfg priv hm).priv.cur_vts = 1763)
    ∧ (hm ≠ 0 →
        (imx219_set_hdr_cfg priv hm).ret = -22
        ∧ (imx219_set_hdr_cfg priv hm).events = []
        ∧ (imx219_set_hdr_cfg priv hm).priv = priv) := by
  refine ⟨?_, ?_, ?_⟩
  · rcases best_fit_lt_two f.width f.height with hb | hb <;>
      simp only [imx219_set_fmt, Bool.false_eq_true, if_false, hb] <;> decide
  · intro h
    subst h
    have hfind : imx219_hdr_find 0 supported_modes 0 = some 0 := by decide
    simp only [imx219_set_hdr_cfg, hfind]
    exact ⟨by decide, trivial, trivial, by decide⟩
  · intro h
    have hfind : imx219_hdr_find hm supported_modes 0 = none := by
      have h2 : ¬ (imx219_mode_0.hdr_mode = hm) := fun e => h (by rw [← e]; decide)
      have h3 : ¬ (imx219_mode_1.hdr_mode = hm) := fun e => h (by rw [← e]; decide)
      simp only [imx219_hdr_find, supported_modes]
      rw [if_neg h2, if_neg h3]
    simp only [imx219_set_hdr_cfg, hfind]
    exact ⟨trivial, trivial, trivial⟩

/-- Witness for C6: a request for an unknown HDR mode fails with -EINVAL and
publishes nothing. -/
theorem imx219_c6_mode_switch_ranges_w :
    (imx219_set_hdr_cfg imx219_init_state 5).ret = -22 :=
  ((imx219_c6_mode_switch_ranges imx219_init_state ⟨0, 1920, 1080⟩ 5).2.2 (by decide)).1

/-- Counterexample for C6 as frozen: the HDR-config path emits no pixel-rate
range publication at all; it only sets the pixel-rate control value.  The
claimed fixed single-value range republication is absent. -/
theorem imx219_c6_hdr_pixelrate_cx :
    (imx219_set_hdr_cfg imx219_init_state 0).events =
      [CtrlEvent.modifyRange CtrlRef.hblank 1524 1524 1 1524,
       CtrlEvent.modifyRange CtrlRef.vblank 683 64455 1 683,
       CtrlEvent.setInt64 CtrlRef.pixel_rate 182153160]
    ∧ CtrlEvent.modifyRange CtrlRef.pixel_rate 182153160 182153160 1 182153160 ∉
        (imx219_set_hdr_cfg imx219_init_state 0).events := by
  refine ⟨by decide, by decide⟩

/-- Claim C9: the attach-time identity check powers on, reads the 16-bit
model id, the three lot-id bytes and the 16-bit chip id in order, powers off
on every path, returns -ENODEV for every model id other than 0x0219
regardless of the lot and chip values, and surfaces any read failure as the
I/O error without retrying (the attempted reads are a prefix of the five). -/
theorem imx219_c9_identity (bus : Bus) :
    (∃ rs, (imx219_video_probe bus).1 = Op.power true :: (rs ++ [Op.power false])
        ∧ rs <+: imx219_probe_reads)
    ∧ ((∀ i, i < 5 → bus.ok i = true) →
        (imx219_video_probe bus).1 = Op.power true :: (imx219_probe_reads ++ [Op.power false])
        ∧ (bus.rd 0 % 65536 ≠ 0x0219 → (imx219_video_probe bus).2 = -19)
        ∧ (bus.rd 0 % 65536 = 0x0219 → (imx219_video_probe bus).2 = 0))
    ∧ ((∃ i, i < 5 ∧ bus.ok i = false) → (imx219_video_probe bus).2 = -5) := by
  by_cases h0 : bus.ok 0
  swap
  · have e : imx219_video_probe bus = ([Op.power true, Op.read 0x0000 2, Op.power false], -5) := by
      simp [imx219_video_probe, reg_read, h0]
    rw [e]
    exact ⟨⟨[Op.read 0x0000 2], rfl, by decide⟩,
      fun hall => absurd (hall 0 (by omega)) h0, fun _ => rfl⟩
  by_cases h1 : bus.ok 1
  swap
  · have e : imx219_video_probe bus =
        ([Op.power true, Op.read 0x0000 2, Op.read 0x0004 1, Op.power false], -5) := by
      simp [imx219_video_probe, reg_read, h0, h1]
    rw [e]
    exact ⟨⟨[Op.read 0x0000 2, Op.read 0x0004 1], rfl, by decide⟩,
      fun hall => absurd (hall 1 (by omega)) h1, fun _ => rfl⟩
  by_cases h2 : bus.ok 2
  swap
  · have e : imx219_video_probe bus =
        ([Op.power true, Op.read 0x0000 2, Op.read 0x0004 1, Op.read 0x0005 1,
          Op.power false], -5) := by
      simp [imx219_video_probe, reg_read, h0, h1, h2]
    rw [e]
    exact ⟨⟨[Op.read 0x0000 2, Op.read 0x0004 1, Op.read 0x0005 1], rfl, by decide⟩,
      fun hall => absurd (hall 2 (by omega)) h2, fun _ => rfl⟩
  by_cases h3 : bus.ok 3
  swap
  · have e : imx219_video_probe bus =
        ([Op.power true, Op.read 0x0000 2, Op.read 0x0004 1, Op.read 0x0005 1,
          Op.read 0x0006 1, Op.power false], -5) := by
      simp [imx219_video_probe, reg_read, h0, h1, h2, h3]
    rw [e]
    exact ⟨⟨[Op.read 0x0000 2, Op.read 0x0004 1, Op.read 0x0005 1, Op.read 0x0006 1],
      rfl, by decide⟩,
      fun hall => absurd (hall 3 (by omega)) h3, fun _ => rfl⟩
  by_cases h4 : bus.ok 4
  swap
  · have e : imx219_video_probe bus =
        ([Op.power true, Op.read 0x0000 2, Op.read 0x0004 1, Op.read 0x0005 1,
          Op.read 0x0006 1, Op.read 0x000D 2, Op.power false], -5) := by
      simp [imx219_video_probe, reg_read, h0, h1, h2, h3, h4]
    rw [e]
    exact ⟨⟨imx219_probe_reads, rfl, by decide⟩,
      fun hall => absurd (hall 4 (by omega)) h4, fun _ => rfl⟩
  by_cases hv : bus.rd 0 % 65536 = 0x0219
  · have e : imx219_video_probe bus =
        ([Op.power true, Op.read 0x0000 2, Op.read 0x0004 1, Op.read 0x0005 1,
          Op.read 0x0006 1, Op.read 0x000D 2, Op.power false], 0) := by
      simp [imx219_video_probe, reg_read, h0, h1, h2, h3, h4, hv]
    rw [e]
    refine ⟨⟨imx219_probe_reads, rfl, by decide⟩,
      fun _ => ⟨rfl, fun hne => absurd hv hne, fun _ => rfl⟩, ?_⟩
    rintro ⟨i, hi, hfail⟩
    interval_cases i
    · rw [h0] at hfail; cases hfail
    · rw [h1] at hfail; cases hfail
    · rw [h2] at hfail; cases hfail
    · rw [h3] at hfail; cases hfail
    · rw [h4] at hfail; cases hfail
  · have e : imx219_video_probe bus =
        ([Op.power true, Op.read 0x0000 2, Op.read 0x0004 1, Op.read 0x0005 1,
          Op.read 0x0006 1, Op.read 0x000D 2, Op.power false], -19) := by
      simp [imx219_video_probe, reg_read, h0, h1, h2, h3, h4, hv]
    rw [e]
    refine ⟨⟨imx219_probe_reads, rfl, by decide⟩,
      fun _ => ⟨rfl, fun _ => rfl, fun he => absurd he hv⟩, ?_⟩
    rintro ⟨i, hi, hfail⟩
    interval_cases i
    · rw [h0] at hfail; cases hfail
    · rw [h1] at hfail; cases hfail
    · rw [h2] at hfail; cases hfail
    · rw [h3] at hfail; cases hfail
    · rw [h4] at hfail; cases hfail

/-- Witness for C9: a device whose model-id register reads 0x1234 (lot and
chip registers reading arbitrary 7) fails the identity check with -ENODEV. -/
theorem imx219_c9_identity_w :
    (imx219_video_probe ⟨fun _ => true, fun i => if i = 0 then 0x1234 else 7⟩).2 = -19 :=
  ((imx219_c9_identity ⟨fun _ => true, fun i => if i = 0 then 0x1234 else 7⟩).2.1
    (fun _ _ => rfl)).2.1 (by decide)

lemma or32_zz : or32 0 0 = 0 := by decide

lemma or32_zf : or32 0 (-5) = -5 := by decide

lemma or32_fz : or32 (-5) 0 = -5 := by decide

lemma or32_ff : or32 (-5) (-5) = -5 := by decide


lemma tbl_ret_cases (bus : Bus) : ∀ (tab : List imx219_reg) (i : ℕ),
    (reg_write_table bus i tab).ret = 0 ∨ (reg_write_table bus i tab).ret = -5 := by
  intro tab
  induction tab with
  | nil => intro i; exact Or.inl rfl
  | cons r rest ih =>
      intro i
      by_cases hs : r.addr = IMX219_TABLE_END
      · simp [reg_write_table, hs]
      · cases hok : bus.ok i
        · simp [reg_write_table, reg_write, hs, hok]
        · simpa [reg_write_table, reg_write, hs, hok] using ih (i + 1)

lemma tbl_pre (bus : Bus) : ∀ (tab : List imx219_reg) (i : ℕ),
    (reg_write_table bus i tab).ops <+: tableOps tab := by
  intro tab
  induction tab with
  | nil => intro i; simp [reg_write_table, tableOps]
  | cons r rest ih =>
      intro i
      by_cases hs : r.addr = IMX219_TABLE_END
      · simp [reg_write_table, tableOps, hs]
      · cases hok : bus.ok i
        · refine ⟨tableOps rest, ?_⟩
          simp [reg_write_table, reg_write, hs, hok, tableOps]
        · obtain ⟨t, ht⟩ := ih (i + 1)
          refine ⟨t, ?_⟩
          simp [reg_write_table, reg_write, hs, hok, tableOps, ht]

lemma tbl_ok (bus : Bus) : ∀ (tab : List imx219_reg) (i : ℕ),
    (reg_write_table bus i tab).ret = 0 →
    (reg_write_table bus i tab).ops = tableOps tab
    ∧ (reg_write_table bus i tab).nxt = i + (tableOps tab).length
    ∧ ∀ j, j < (tableOps tab).length → bus.ok (i + j) = true := by
  intro tab
  induction tab with
  | nil =>
      intro i _
      refine ⟨rfl, by simp [reg_write_table, tableOps], ?_⟩
      intro j hj
      simp [tableOps] at hj
  | cons r rest ih =>
      intro i h
      by_cases hs : r.addr = IMX219_TABLE_END
      · refine ⟨by simp [reg_write_table, tableOps, hs], ?_, ?_⟩
        · simp [reg_write_table, tableOps, hs]
        · intro j hj
          simp [tableOps, hs] at hj
      · cases hok : bus.ok i
        · exfalso
          simp [reg_write_table, reg_write, hs, hok] at h
        · have h2 : (reg_write_table bus (i + 1) rest).ret = 0 := by
            simpa [reg_write_table, reg_write, hs, hok] using h
          obtain ⟨hops, hnxt, hok2⟩ := ih (i + 1) h2
          refine ⟨?_, ?_, ?_⟩
          · simp [reg_write_table, reg_write, hs, hok, tableOps, hops]
          · simp [reg_write_table, reg_write, hs, hok, tableOps, hnxt]
            try omega
          · intro j hj
            simp only [tableOps, if_neg hs, List.length_cons] at hj
            match j with
            | 0 => simpa using hok
            | (k + 1) =>
                have hx := hok2 k (by omega)
                rwa [show i + 1 + k = i + (k + 1) by omega] at hx

lemma ite_ret_cases (c : Bool) :
    (if c = true then (0 : ℤ) else -5) = 0 ∨ (if c = true then (0 : ℤ) else -5) = -5 := by
  cases c <;> simp

lemma ite_ret_eq_zero (c : Bool) (h : (if c = true then (0 : ℤ) else -5) = 0) : c = true := by
  cases c
  · simp at h
  · rfl

lemma or32_mem (a b : ℤ) (ha : a = 0 ∨ a = -5) (hb : b = 0 ∨ b = -5) :
    or32 a b = 0 ∨ or32 a b = -5 := by
  rcases ha with rfl | rfl <;> rcases hb with rfl | rfl
  · exact Or.inl or32_zz
  · exact Or.inr or32_zf
  · exact Or.inr or32_fz
  · exact Or.inr or32_ff

lemma or32_eq_zero (a b : ℤ) (ha : a = 0 ∨ a = -5) (hb : b = 0 ∨ b = -5)
    (h : or32 a b = 0) : a = 0 ∧ b = 0 := by
  rcases ha with rfl | rfl <;> rcases hb with rfl | rfl
  · exact ⟨rfl, rfl⟩
  · rw [or32_zf] at h; exact absurd h (by decide)
  · rw [or32_fz] at h; exact absurd h (by decide)
  · rw [or32_ff] at h; exact absurd h (by decide)

lemma tp_writes_spec (priv : imx219_state) (bus : Bus) (i : ℕ) :
    (imx219_tp_writes priv bus i).ops =
      (if priv.test_pattern ≠ 0 then
        [Op.write 0x0600 2 priv.test_pattern,
         Op.write 0x0624 2 (getMode priv.cur_mode).width,
         Op.write 0x0626 2 (getMode priv.cur_mode).height]
       else [Op.write 0x0600 2 0])
    ∧ ((imx219_tp_writes priv bus i).ret = 0 ∨ (imx219_tp_writes priv bus i).ret = -5)
    ∧ ((imx219_tp_writes priv bus i).ret = 0 →
        ∀ j, j < (if priv.test_pattern ≠ 0 then 3 else 1) → bus.ok (i + j) = true)
    ∧ (imx219_tp_writes priv bus i).nxt = i + (if priv.test_pattern ≠ 0 then 3 else 1) := by
  by_cases htp : priv.test_pattern ≠ 0
  · have hr : (imx219_tp_writes priv bus i).ret =
        or32 (or32 (if bus.ok i = true then 0 else -5) (if bus.ok (i + 1) = true then 0 else -5))
          (if bus.ok (i + 1 + 1) = true then 0 else -5) := by
      simp [imx219_tp_writes, reg_write, htp]
    refine ⟨by simp [imx219_tp_writes, reg_write, htp], ?_, ?_, ?_⟩
    · rw [hr]
      exact or32_mem _ _ (or32_mem _ _ (ite_ret_cases _) (ite_ret_cases _)) (ite_ret_cases _)
    · intro hz j hj
      rw [if_pos htp] at hj
      rw [hr] at hz
      obtain ⟨hxy, hc⟩ := or32_eq_zero _ _
        (or32_mem _ _ (ite_ret_cases _) (ite_ret_cases _)) (ite_ret_cases _) hz
      obtain ⟨hx, hy⟩ := or32_eq_zero _ _ (ite_ret_cases _) (ite_ret_cases _) hxy
      have hA := ite_ret_eq_zero _ hx
      have hB := ite_ret_eq_zero _ hy
      have hC := ite_ret_eq_zero _ hc
      match j with
      | 0 => simpa using hA
      | 1 => exact hB
      | 2 => rw [show i + 2 = i + 1 + 1 by omega]; exact hC
      | (k + 3) => exact absurd hj (by omega)
    · simp [imx219_tp_writes, reg_write, htp]
  · refine ⟨by simp [imx219_tp_writes, reg_write, htp], ?_, ?_, ?_⟩
    · cases hA : bus.ok i <;> simp [imx219_tp_writes, reg_write, htp, hA]
    · intro hz j hj
      rw [if_neg htp] at hj
      cases hA : bus.ok i
      · exfalso
        rw [show (imx219_tp_writes priv bus i).ret = -5 by
          simp [imx219_tp_writes, reg_write, htp, hA]] at hz
        exact absurd hz (by decide)
      · match j with
        | 0 => simpa using hA
        | (k + 1) => exact absurd hj (by omega)
    · simp [imx219_tp_writes, reg_write, htp]

lemma noEnable_table (n : ℕ) : Op.write 0x0100 1 1 ∉ tableOps (getMode n).reg_list := by
  match n with
  | 0 => decide
  | 1 => decide
  | (k + 2) =>
      have h : getMode (k + 2) = imx219_mode_dflt := by
        unfold getMode
        refine List.getD_eq_default _ _ ?_
        simp only [supported_modes, List.length_cons, List.length_nil]
        omega
      rw [h]
      decide

lemma noEnable_pre (priv : imx219_state) : Op.write 0x0100 1 1 ∉ imx219_pre_seq priv := by
  intro hmem
  unfold imx219_pre_seq at hmem
  rcases List.mem_append.mp hmem with hmem2 | hmem2
  · rcases List.mem_append.mp hmem2 with hmem3 | hmem3
    · exact noEnable_table _ hmem3
    · simp at hmem3
  · by_cases htp : priv.test_pattern ≠ 0
    · rw [if_pos htp] at hmem2
      simp at hmem2
    · rw [if_neg htp] at hmem2
      simp at hmem2

/-- Claim C7: on the start-streaming transition the attempted writes are
always an initial segment of the claimed sequence (full mode register
program, then orientation, then the test-pattern block, then stream
enable); success produces exactly that sequence; every failure surfaces
-EIO; and the stream-enable write is attempted only when every write of the
three earlier phases was attempted and succeeded. -/
theorem imx219_c7_start_order (priv : imx219_state) (bus : Bus) :
    (imx219_s_stream priv bus 0 true).ops <+: imx219_start_seq priv
    ∧ ((imx219_s_stream priv bus 0 true).ret = 0 →
        (imx219_s_stream priv bus 0 true).ops = imx219_start_seq priv)
    ∧ ((imx219_s_stream priv bus 0 true).ret ≠ 0 →
        (imx219_s_stream priv bus 0 true).ret = -5)
    ∧ (Op.write 0x0100 1 1 ∈ (imx219_s_stream priv bus 0 true).ops →
        (imx219_s_stream priv bus 0 true).ops = imx219_start_seq priv
        ∧ ∀ j, j < (imx219_pre_seq priv).length → bus.ok j = true) := by
  obtain ⟨tpops, tpret, tpok, tpnxt⟩ := tp_writes_spec priv bus
    ((reg_write_table bus 0 (getMode priv.cur_mode).reg_list).nxt + 1)
  rcases tbl_ret_cases bus (getMode priv.cur_mode).reg_list 0 with hT | hT
  swap
  · -- the mode register replay fails
    have he : imx219_s_stream priv bus 0 true =
        ⟨priv, (reg_write_table bus 0 (getMode priv.cur_mode).reg_list).ops, -5⟩ := by
      simp [imx219_s_stream, hT]
    rw [he]
    refine ⟨?_, ?_, ?_, ?_⟩
    · exact (tbl_pre bus _ 0).trans
        ⟨[Op.write 0x0172 1 (imx219_orient priv)] ++
          (if priv.test_pattern ≠ 0 then
            [Op.write 0x0600 2 priv.test_pattern,
             Op.write 0x0624 2 (getMode priv.cur_mode).width,
             Op.write 0x0626 2 (getMode priv.cur_mode).height]
           else [Op.write 0x0600 2 0]) ++ [Op.write 0x0100 1 1],
         by simp [imx219_start_seq, imx219_pre_seq, List.append_assoc]⟩
    · intro h
      simp at h
    · intro _
      rfl
    · intro hmem
      exact absurd ((tbl_pre bus _ 0).subset hmem) (noEnable_table priv.cur_mode)
  · -- the replay succeeded
    obtain ⟨hops1, hnxt1, hok1⟩ := tbl_ok bus (getMode priv.cur_mode).reg_list 0 hT
    cases hB : bus.ok (reg_write_table bus 0 (getMode priv.cur_mode).reg_list).nxt
    · -- the orientation write fails
      have he : imx219_s_stream priv bus 0 true =
          ⟨priv, (reg_write_table bus 0 (getMode priv.cur_mode).reg_list).ops ++
            [Op.write 0x0172 1 (imx219_orient priv)], -5⟩ := by
        simp [imx219_s_stream, reg_write, hT, hB]
      rw [he]
      refine ⟨?_, ?_, ?_, ?_⟩
      · rw [hops1]
        exact ⟨(if priv.test_pattern ≠ 0 then
            [Op.write 0x0600 2 priv.test_pattern,
             Op.write 0x0624 2 (getMode priv.cur_mode).width,
             Op.write 0x0626 2 (getMode priv.cur_mode).height]
           else [Op.write 0x0600 2 0]) ++ [Op.write 0x0100 1 1],
         by simp [imx219_start_seq, imx219_pre_seq, List.append_assoc]⟩
      · intro h
        simp at h
      · intro _
        rfl
      · intro hmem
        rw [hops1] at hmem
        rcases List.mem_append.mp hmem with h2 | h2
        · exact absurd h2 (noEnable_table priv.cur_mode)
        · simp at h2
    · -- the orientation write succeeded
      have hpre_eq : (reg_write_table bus 0 (getMode priv.cur_mode).reg_list).ops ++
          [Op.write 0x0172 1 (imx219_orient priv)] ++
          (imx219_tp_writes priv bus
            ((reg_write_table bus 0 (getMode priv.cur_mode).reg_list).nxt + 1)).ops =
          imx219_pre_seq priv := by
        rw [hops1, tpops]
        rfl
      rcases tpret with hC | hC
      swap
      · -- the test-pattern block fails
        have he : imx219_s_stream priv bus 0 true =
            ⟨{ priv with cur_vts := imx219_stream_vts (getMode priv.cur_mode) },
              (reg_write_table bus 0 (getMode priv.cur_mode).reg_list).ops ++
                [Op.write 0x0172 1 (imx219_orient priv)] ++
                (imx219_tp_writes priv bus
                  ((reg_write_table bus 0 (getMode priv.cur_mode).reg_list).nxt + 1)).ops,
              -5⟩ := by
          simp [imx219_s_stream, reg_write, hT, hB, hC]
        rw [he]
        refine ⟨?_, ?_, ?_, ?_⟩
        · rw [hpre_eq]
          exact ⟨[Op.write 0x0100 1 1], rfl⟩
        · intro h
          simp at h
        · intro _
          rfl
        · intro hmem
          rw [hpre_eq] at hmem
          exact absurd hmem (noEnable_pre priv)
      · -- everything up to the test pattern succeeded
        have hassemble : ∀ j, j < (imx219_pre_seq priv).length → bus.ok j = true := by
          have hlen : (imx219_pre_seq priv).length =
              (tableOps (getMode priv.cur_mode).reg_list).length + 1 +
                (if priv.test_pattern ≠ 0 then 3 else 1) := by
            by_cases htp : priv.test_pattern ≠ 0 <;>
              simp [imx219_pre_seq, List.length_append, htp]
          intro j hj
          rw [hlen] at hj
          by_cases hj1 : j < (tableOps (getMode priv.cur_mode).reg_list).length
          · simpa using hok1 j hj1
          · by_cases hj2 : j = (tableOps (getMode priv.cur_mode).reg_list).length
            · rw [hnxt1] at hB
              rw [hj2]
              simpa using hB
            · have hk : j - ((tableOps (getMode priv.cur_mode).reg_list).length + 1) <
                  (if priv.test_pattern ≠ 0 then 3 else 1) := by omega
              have hx := tpok hC _ hk
              rw [hnxt1] at hx
              rwa [show 0 + (tableOps (getMode priv.cur_mode).reg_list).length + 1 +
                (j - ((tableOps (getMode priv.cur_mode).reg_list).length + 1)) = j
                by omega] at hx
        cases hD : bus.ok (imx219_tp_writes priv bus
            ((reg_write_table bus 0 (getMode priv.cur_mode).reg_list).nxt + 1)).nxt
        · -- the stream-enable write itself fails
          have he : imx219_s_stream priv bus 0 true =
              ⟨{ priv with cur_vts := imx219_stream_vts (getMode priv.cur_mode) },
                (reg_write_table bus 0 (getMode priv.cur_mode).reg_list).ops ++
                  [Op.write 0x0172 1 (imx219_orient priv)] ++
                  (imx219_tp_writes priv bus
                    ((reg_write_table bus 0 (getMode priv.cur_mode).reg_list).nxt + 1)).ops ++
                  [Op.write 0x0100 1 1],
                -5⟩ := by
            simp [imx219_s_stream, reg_write_table, reg_write, imx219_start_tab,
              IMX219_TABLE_END, hT, hB, hC, hD]
          rw [he]
          have hfull : (reg_write_table bus 0 (getMode priv.cur_mode).reg_list).ops ++
              [Op.write 0x0172 1 (imx219_orient priv)] ++
              (imx219_tp_writes priv bus
                ((reg_write_table bus 0 (getMode priv.cur_mode).reg_list).nxt + 1)).ops ++
              [Op.write 0x0100 1 1] = imx219_start_seq priv := by
            rw [imx219_start_seq, ← hpre_eq]
          rw [hfull]
          exact ⟨⟨[], by simp⟩, fun _ => rfl, fun _ => rfl, fun _ => ⟨rfl, hassemble⟩⟩
        · -- full success
          have he : imx219_s_stream priv bus 0 true =
              ⟨{ priv with cur_vts := imx219_stream_vts (getMode priv.cur_mode) },
                (reg_write_table bus 0 (getMode priv.cur_mode).reg_list).ops ++
                  [Op.write 0x0172 1 (imx219_orient priv)] ++
                  (imx219_tp_writes priv bus
                    ((reg_write_table bus 0 (getMode priv.cur_mode).reg_list).nxt + 1)).ops ++
                  [Op.write 0x0100 1 1],
                0⟩ := by
            simp [imx219_s_stream, reg_write_table, reg_write, imx219_start_tab,
              IMX219_TABLE_END, hT, hB, hC, hD]
          rw [he]
          have hfull : (reg_write_table bus 0 (getMode priv.cur_mode).reg_list).ops ++
              [Op.write 0x0172 1 (imx219_orient priv)] ++
              (imx219_tp_writes priv bus
                ((reg_write_table bus 0 (getMode priv.cur_mode).reg_list).nxt + 1)).ops ++
              [Op.write 0x0100 1 1] = imx219_start_seq priv := by
            rw [imx219_start_seq, ← hpre_eq]
          rw [hfull]
          exact ⟨⟨[], by simp⟩, fun _ => rfl, fun h => absurd rfl h, fun _ => ⟨rfl, hassemble⟩⟩

/-- Witness for C7: on a transport with no failures, starting the stream
from the probe-time state emits exactly the claimed sequence. -/
theorem imx219_c7_start_order_w :
    (imx219_s_stream imx219_init_state allOkBus 0 true).ops =
      imx219_start_seq imx219_init_state :=
  (imx219_c7_start_order imx219_init_state allOkBus).2.1 (by decide)
